import Mathlib

/-!
Verification of the contract-workflow orchestration core of the
real-estate-agents repository.

The development shallowly embeds the TypeScript sources:

* `src/lib/langchain/chains/document-processing.ts`
  (`ContractWorkflowOrchestrator`, `executeContractWorkflow`,
  `processContractDocument`),
* `src/lib/langchain/tools/similarity-search.ts` (`searchContracts`,
  `buildFilterFunction`),
* `src/lib/langchain/chains/contract-generation.ts` (`createContractChain`),
* `src/lib/langchain/tools/contract-analysis.ts` (`validateContractRules`),
* `src/lib/langchain/chains/feedback-processing.ts` (`processFeedback`).

External collaborators (the language-model service, the vector store, the
PDF loader/splitter, the database) are modelled as explicit oracle
parameters; a JavaScript exception escaping a function is modelled as
`Except.error` carrying the error message.  `Date` values are modelled as
abstract clock parameters.
-/

/-! ### Workflow orchestrator (document-processing.ts, lines 146-360)

`WorkflowInput` is validated by `workflowInputSchema` (zod): `action` must
be one of the three enum strings and `data` must be present; `options` is
optional, its three fields defaulting to `true`, `true`, `3`.  The raw
(pre-validation) input is modelled with a free-form `action` string, a
flag for the presence of `data`, and optional raw options. -/

inductive WfStatus
  | pending
  | processing
  | completed
  | failed
deriving DecidableEq, Repr

inductive WfAction
  | generate
  | process
  | analyze
deriving DecidableEq, Repr

def actionLabel : WfAction → String
  | .generate => "generate"
  | .process => "process"
  | .analyze => "analyze"

/-- Raw `options` object before zod fills in the field defaults. -/
structure RawWorkflowOptions where
  includeSimilarContracts : Option Bool
  validateResults : Option Bool
  maxRetries : Option Nat
deriving DecidableEq, Repr

/-- A raw `WorkflowInput` value as received by `execute`, before
`workflowInputSchema.parse`.  `hasData` records whether the required
`data` object is present. -/
structure RawWorkflowInput where
  action : String
  hasData : Bool
  options : Option RawWorkflowOptions
deriving DecidableEq, Repr

/-- `WorkflowOptions` after zod defaulting / merging with
`DEFAULT_OPTIONS`. -/
structure WorkflowOptions where
  includeSimilarContracts : Bool
  validateResults : Bool
  maxRetries : Nat
deriving DecidableEq, Repr

/-- `DEFAULT_OPTIONS` from document-processing.ts. -/
def DEFAULT_OPTIONS : WorkflowOptions :=
  { includeSimilarContracts := true, validateResults := true, maxRetries := 3 }

/-- zod defaulting of the fields of a present `options` object
(`.default(true)`, `.default(true)`, `.default(3)`). -/
def applyOptionDefaults (r : RawWorkflowOptions) : WorkflowOptions :=
  { includeSimilarContracts := r.includeSimilarContracts.getD true
    validateResults := r.validateResults.getD true
    maxRetries := r.maxRetries.getD 3 }

/-- A `WorkflowInput` that passed `workflowInputSchema.parse`. -/
structure ParsedWorkflowInput where
  action : WfAction
  options : Option WorkflowOptions
deriving DecidableEq, Repr

def parseAction (s : String) : Option WfAction :=
  if s = "generate" then some .generate
  else if s = "process" then some .process
  else if s = "analyze" then some .analyze
  else none

/-- `workflowInputSchema.parse`: fails (throws) when `action` is not one
of the enum values or `data` is absent; otherwise returns the input with
option defaults applied. -/
def parseWorkflowInput (r : RawWorkflowInput) : Except String ParsedWorkflowInput :=
  match parseAction r.action with
  | none =>
      .error ("Invalid enum value. Expected generate | process | analyze, received "
        ++ r.action)
  | some a =>
      if r.hasData then .ok ⟨a, r.options.map applyOptionDefaults⟩
      else .error "Required object data is missing"

/-- `WorkflowState`; `results` holds the accumulated pipeline output
(abstracted over its payload type `ρ`), timestamps are abstract clock
values. -/
structure WorkflowState (ρ : Type) where
  status : WfStatus
  currentStep : String
  results : Option ρ
  error : Option String
  startTime : Nat
  endTime : Option Nat
deriving DecidableEq, Repr

/-- The state installed by the `ContractWorkflowOrchestrator` constructor. -/
def initialWorkflowState (ρ : Type) (now : Nat) : WorkflowState ρ :=
  { status := .pending, currentStep := "initialization", results := none
    error := none, startTime := now, endTime := none }

/-- The `maxRetries` value used both by the option merge in the try block
and by `options?.maxRetries ?? DEFAULT_OPTIONS.maxRetries` in the catch
block of `execute` (both coincide because zod already filled the field
default). -/
def optMaxRetries (vi : ParsedWorkflowInput) : Nat :=
  (vi.options.map WorkflowOptions.maxRetries).getD DEFAULT_OPTIONS.maxRetries

/-- The recursion at the heart of `ContractWorkflowOrchestrator.execute`
after a successful input validation, together with `handleError`
(lines 200-231 and 319-339).  The dispatched pipeline is abstracted as an
oracle `pipeline : Nat → Except String ρ` giving the outcome of the
attempt with the given 0-based attempt index (the orchestrator instance
field `retryCount`).  On pipeline success `completeWorkflow` marks the
state `completed` and stamps `endTime`; on failure `handleError` either
re-executes with `retryCount + 1` (when `retryCount < maxRetries`) or
marks the state `failed` with the wrapped message and stamps `endTime`.
The second component counts the pipeline invocations performed
(total attempts).  Since `workflowInputSchema.parse` is pure, re-parsing
the unchanged input on every re-execution always yields the same `vi`,
so the recursion is expressed directly on the parsed input. -/
def executeGo {ρ : Type} (pipeline : Nat → Except String ρ) (now : Nat)
    (vi : ParsedWorkflowInput) (st : WorkflowState ρ) (retryCount : Nat) :
    WorkflowState ρ × Nat :=
  let st1 : WorkflowState ρ :=
    { st with status := .processing, currentStep := actionLabel vi.action }
  match pipeline retryCount with
  | .ok res =>
      ({ st1 with status := .completed, results := some res, endTime := some now }, 1)
  | .error e =>
      if h : retryCount < optMaxRetries vi then
        let r := executeGo pipeline now vi st1 (retryCount + 1)
        (r.1, r.2 + 1)
      else
        ({ st1 with
            status := .failed
            error := some ("Workflow failed after " ++ toString (optMaxRetries vi)
              ++ " attempts: " ++ e)
            endTime := some now }, 1)
termination_by optMaxRetries vi - retryCount
decreasing_by omega

/-- `ContractWorkflowOrchestrator.execute`: validates the input; a
validation failure raised inside the try block reaches the catch block,
whose own `workflowInputSchema.parse(input)` call throws the same
validation error again, so the error escapes `execute` (modelled as
`Except.error`).  On successful validation the retry loop `executeGo`
runs and no exception can escape. -/
def execute {ρ : Type} (pipeline : Nat → Except String ρ) (now : Nat)
    (input : RawWorkflowInput) (st : WorkflowState ρ) (retryCount : Nat) :
    Except String (WorkflowState ρ × Nat) :=
  match parseWorkflowInput input with
  | .error e => .error e
  | .ok vi => .ok (executeGo pipeline now vi st retryCount)

/-- `executeContractWorkflow`: creates a fresh orchestrator (fresh state,
`retryCount = 0`) and runs `execute`. -/
def executeContractWorkflow {ρ : Type} (pipeline : Nat → Except String ρ) (now : Nat)
    (input : RawWorkflowInput) : Except String (WorkflowState ρ × Nat) :=
  execute pipeline now input (initialWorkflowState ρ now) 0

/-! ### Similarity search post-processing (similarity-search.ts, lines 51-114)

`searchContracts` asks the vector store for `options.limit` raw
candidates, then maps them to `{document, score, rank: index + 1}`,
filters by `score >= (options.minScore || 0.7)` and sorts descending by
score (JavaScript `Array.prototype.sort` is stable).  The raw candidate
list returned by `similaritySearchWithScore` is a parameter; documents
are abstracted to their page content, scores to rationals. -/

structure SearchResult where
  document : String
  score : ℚ
  rank : Nat
deriving DecidableEq, Repr

/-- JavaScript `x || d` on a number `x` in `[0, 1]`: yields `d` when `x`
is `0` (falsy), `x` otherwise. -/
def jsOrNum (x d : ℚ) : ℚ :=
  if x = 0 then d else x

/-- `.map(([document, score], index) => ({document, score, rank: index + 1}))`:
ranks are assigned from the position in the raw candidate list, before
any filtering. -/
def rankRaw : Nat → List (String × ℚ) → List SearchResult
  | _, [] => []
  | i, (d, s) :: rest => ⟨d, s, i + 1⟩ :: rankRaw (i + 1) rest

/-- Descending-score order used by the comparator
`(a, b) => b.score - a.score`. -/
def scoreGe (a b : SearchResult) : Prop :=
  b.score ≤ a.score

instance : DecidableRel scoreGe :=
  fun a b => inferInstanceAs (Decidable (b.score ≤ a.score))

instance : IsTotal SearchResult scoreGe :=
  ⟨fun a b => le_total b.score a.score⟩

instance : IsTrans SearchResult scoreGe :=
  ⟨fun _ _ _ h1 h2 => le_trans h2 h1⟩

/-- The `processedResults` computation of `searchContracts`
(lines 99-106): rank by raw position, then filter by
`score >= (options.minScore || 0.7)`, then stable-sort descending by
score. -/
def processSearchResults (raw : List (String × ℚ)) (minScore : ℚ) : List SearchResult :=
  List.insertionSort scoreGe
    ((rankRaw 0 raw).filter (fun r => decide (jsOrNum minScore (7 / 10) ≤ r.score)))

/-- Concrete raw candidate list: a low-scoring first candidate followed
by a high-scoring second candidate. -/
def lowHighCandidates : List (String × ℚ) :=
  [("docA", 1 / 2), ("docB", 9 / 10)]

/-! ### Metadata filter construction (similarity-search.ts, lines 60-89)

`buildFilterFunction` starts from
`filterChain = rpc => rpc.filter(archived eq false)` and, for each
supplied filter, reassigns
`filterChain = rpc => filterChain(rpc).filter(...)`.  Every arrow
function closes over the single mutable `filterChain` binding, so after
the last reassignment the inner `filterChain(rpc)` call of each wrapper
resolves to the final value of the variable — the wrapper itself
whenever at least one optional filter was supplied.  The model keeps the
final value of the binding (`FilterFn`) and evaluates calls with
explicit fuel; a call that exhausts any fuel diverges in JavaScript
(unbounded self-recursion ending in a stack overflow). -/

structure SearchFilters where
  contractType : Option String
  dateStart : Option String
  dateEnd : Option String
  propertyType : Option String
  jurisdiction : Option String
deriving DecidableEq, Repr

/-- One `.filter(...)` condition appended to the Supabase query. -/
inductive FilterCond
  | archivedEqFalse
  | typeEq (t : String)
  | createdGte (d : String)
  | createdLte (d : String)
  | propertyTypeEq (p : String)
  | jurisdictionEq (j : String)
deriving DecidableEq, Repr

/-- A value of the `filterChain` variable: the initial base closure, or
one of the wrappers `rpc => filterChain(rpc).filter(c)` (identified by
the condition it appends; its inner call goes through the shared
mutable binding). -/
inductive FilterFn
  | base
  | wrap (c : FilterCond)
deriving DecidableEq, Repr

/-- The final value of the `filterChain` variable after the five
conditional reassignments of `buildFilterFunction`, in source order. -/
def buildFilterFunction (f : SearchFilters) : FilterFn :=
  let v : FilterFn := .base
  let v := match f.contractType with
    | some t => .wrap (.typeEq t)
    | none => v
  let v := match f.dateStart with
    | some d => .wrap (.createdGte d)
    | none => v
  let v := match f.dateEnd with
    | some d => .wrap (.createdLte d)
    | none => v
  let v := match f.propertyType with
    | some p => .wrap (.propertyTypeEq p)
    | none => v
  let v := match f.jurisdiction with
    | some j => .wrap (.jurisdictionEq j)
    | none => v
  v

/-- Calling a `filterChain` value on a query `rpc` (the list of
conditions applied so far).  `env` is the final value held by the shared
`filterChain` binding, which the inner call of every wrapper reads.  `fuel`
bounds the call depth: `none` means the call does not finish within the
given depth (for the self-referential wrapper this holds for every
depth, i.e. the JavaScript call never returns). -/
def callFilterFn (env : FilterFn) : Nat → FilterFn → List FilterCond → Option (List FilterCond)
  | _, .base, rpc => some (rpc ++ [.archivedEqFalse])
  | 0, .wrap _, _ => none
  | fuel + 1, .wrap c, rpc =>
      match callFilterFn env fuel env rpc with
      | none => none
      | some rpc2 => some (rpc2 ++ [c])

/-- Invoking the function returned by `buildFilterFunction filters` on a
query `rpc`, with call depth bounded by `fuel`. -/
def invokeBuiltFilter (f : SearchFilters) (fuel : Nat) (rpc : List FilterCond) :
    Option (List FilterCond) :=
  callFilterFn (buildFilterFunction f) fuel (buildFilterFunction f) rpc

/-- A filter set supplying both a contract type and a creation-date
range. -/
def typeAndDateFilters : SearchFilters :=
  { contractType := some "purchase"
    dateStart := some "2024-01-01"
    dateEnd := some "2024-12-31"
    propertyType := none
    jurisdiction := none }

/-- The empty filter set (every optional filter absent). -/
def noFilters : SearchFilters :=
  { contractType := none, dateStart := none, dateEnd := none
    propertyType := none, jurisdiction := none }

/-! ### Contract generation chain (contract-generation.ts, lines 100-150)

Step 1 of `createContractChain` always builds the query
`"{type} property at {address} for {price}"` and calls
`searchSimilarContracts(query, { limit: 3, type })`, joining the match
texts with blank lines, or substituting the sentinel
`"No similar contracts found."` when no match is returned.  Step 3
re-parses the model output against `contractSchema` and then overwrites
`metadata.lastUpdated` with the generation timestamp.

The `executeGenerationWorkflow` method of the orchestrator
(document-processing.ts, lines 234-272) additionally performs its own
`searchContracts` call with query `"{type} {address}"` and limit 3, but
only when `options.includeSimilarContracts` is set; its results are
spread into the input of `generateContract`, which ignores them (the
chain does its own retrieval). -/

structure ContractSection where
  title : String
  content : String
  isRequired : Bool
deriving DecidableEq, Repr

structure ContractOutMetadata where
  type : String
  jurisdiction : String
  lastUpdated : String
  version : String
deriving DecidableEq, Repr

/-- A value of the TypeScript `ContractOutput` type (the shape declared
by `contractSchema`). -/
structure ContractOutput where
  title : String
  sections : List ContractSection
  summary : String
  metadata : ContractOutMetadata
  warnings : Option (List String)
deriving DecidableEq, Repr

/-- A candidate output of the generative model before schema
validation: each required top-level field may be absent. -/
structure RawContractOutput where
  title : Option String
  sections : Option (List ContractSection)
  summary : Option String
  metadata : Option ContractOutMetadata
  warnings : Option (List String)
deriving DecidableEq, Repr

/-- `contractSchema.parse`: succeeds exactly when every required field
is present, returning the typed value unchanged (zod returns the parsed
data as-is for conforming input). -/
def contractSchemaParse (r : RawContractOutput) : Except String ContractOutput :=
  match r.title, r.sections, r.summary, r.metadata with
  | some t, some secs, some sm, some md => .ok ⟨t, secs, sm, md, r.warnings⟩
  | _, _, _, _ => .error "missing required field"

/-- Step 3 of `createContractChain` (lines 133-146): validate against
`contractSchema`; on failure throw
`"Generated contract failed validation"`; on success overwrite
`metadata.lastUpdated` with the current timestamp and return. -/
def validateAndStamp (now : String) (r : RawContractOutput) : Except String ContractOutput :=
  match contractSchemaParse r with
  | .error _ => .error "Generated contract failed validation"
  | .ok validated =>
      .ok { validated with metadata := { validated.metadata with lastUpdated := now } }

/-- Forgetting the typing of a `ContractOutput` back into a raw
candidate (every required field present). -/
def eraseContractOutput (o : ContractOutput) : RawContractOutput :=
  ⟨some o.title, some o.sections, some o.summary, some o.metadata, o.warnings⟩

/-- The property details of a `ContractInput` used by the generation
pipeline. -/
structure GenPropertyDetails where
  address : String
  price : String
  propertyType : String
deriving DecidableEq, Repr

/-- One call to the similarity retriever: the query string and the
requested number of candidates. -/
structure RetrievalCall where
  query : String
  limit : Nat
deriving DecidableEq, Repr

/-- The retrieval performed unconditionally by step 1 of
`createContractChain` (line 106-112):
`searchSimilarContracts("{type} property at {address} for {price}", { limit: 3, type })`. -/
def chainRetrievalCall (pd : GenPropertyDetails) : RetrievalCall :=
  ⟨pd.propertyType ++ " property at " ++ pd.address ++ " for " ++ pd.price, 3⟩

/-- The retrieval performed by `executeGenerationWorkflow` when
`options.includeSimilarContracts` is set (lines 242-252):
`searchContracts({ query: "{type} {address}", options: { limit: 3, minScore: 0.7, ... } })`. -/
def workflowRetrievalCall (pd : GenPropertyDetails) : RetrievalCall :=
  ⟨pd.propertyType ++ " " ++ pd.address, 3⟩

/-- The `similarContracts` prompt variable built by step 1 of
`createContractChain` (lines 120-122) from the texts of the retrieved
matches. -/
def chainSimilarContext (docs : List String) : String :=
  if docs.length > 0 then String.intercalate "\n\n" docs
  else "No similar contracts found."

/-- The similarity-retrieval behaviour of the generation pipeline
(`executeGenerationWorkflow` followed by `generateContract`): the list
of retrieval calls issued, in order, and the reference text injected
into the generative prompt.  `retr` is the retriever oracle mapping a
call to the texts of its matches. -/
def generationRetrievalTrace (retr : RetrievalCall → List String)
    (includeSimilarContracts : Bool) (pd : GenPropertyDetails) :
    List RetrievalCall × String :=
  let wfCalls := if includeSimilarContracts then [workflowRetrievalCall pd] else []
  (wfCalls ++ [chainRetrievalCall pd],
   chainSimilarContext (retr (chainRetrievalCall pd)))

/-! ### Rule validation (contract-analysis.ts, lines 190-229)

`validateContractRules` evaluates the two fixed local rules on the
extracted clause list; its body performs no call to the generative
model (it is a pure function of its arguments). -/

inductive ClauseType
  | purchase_price
  | closing_date
  | contingencies
  | representations
  | warranties
  | terminationClause
  | governing_law
  | other
deriving DecidableEq, Repr

def clauseTypeName : ClauseType → String
  | .purchase_price => "purchase_price"
  | .closing_date => "closing_date"
  | .contingencies => "contingencies"
  | .representations => "representations"
  | .warranties => "warranties"
  | .terminationClause => "termination"
  | .governing_law => "governing_law"
  | .other => "other"

inductive RiskLevel
  | low
  | medium
  | high
deriving DecidableEq, Repr

structure ClauseData where
  type : ClauseType
  content : String
  isRequired : Bool
  riskLevel : RiskLevel
  suggestions : Option (List String)
deriving DecidableEq, Repr

structure ValidationEntry where
  rule : String
  passed : Bool
  details : String
deriving DecidableEq, Repr

/-- The `requiredTypes` list of the `required_clauses` rule. -/
def requiredClauseTypes : List ClauseType :=
  [.purchase_price, .closing_date, .contingencies]

/-- `requiredTypes.filter(type => !clauses.some(clause => clause.type === type))`. -/
def missingRequiredClauses (clauses : List ClauseData) : List ClauseType :=
  requiredClauseTypes.filter (fun t => !(clauses.any (fun c => c.type == t)))

/-- `validateContractRules(clauses, jurisdiction)`: runs the fixed rule
list (`required_clauses` then `high_risk_review`) and returns one entry
per rule.  The `jurisdiction` argument is accepted but unused, as in the
source. -/
def validateContractRules (clauses : List ClauseData) (jurisdiction : String) :
    List ValidationEntry :=
  let missingRequired := missingRequiredClauses clauses
  let highRiskClauses := clauses.filter (fun c => c.riskLevel == .high)
  [{ rule := "required_clauses"
     passed := missingRequired.length == 0
     details :=
       if missingRequired.length > 0 then
         "Missing required clauses: "
           ++ String.intercalate ", " (missingRequired.map clauseTypeName)
       else "All required clauses present" },
   { rule := "high_risk_review"
     passed := highRiskClauses.length == 0
     details :=
       if highRiskClauses.length > 0 then
         "Found " ++ toString highRiskClauses.length
           ++ " high-risk clauses that need review"
       else "No high-risk clauses found" }]

/-! ### Feedback processing (feedback-processing.ts, lines 109-143)

`processFeedback` validates the feedback against `feedbackSchema`,
inserts a row into the `feedback` table, then runs the analysis chain;
any error is rewrapped as `"Failed to process feedback: ..."`.  The
database is modelled as the list of inserted rows; the insert outcome
and the analysis outcome are oracle parameters. -/

structure FeedbackAspects where
  clarity : Int
  completeness : Int
  accuracy : Int
  legalCompliance : Int
deriving DecidableEq, Repr

structure FeedbackData where
  contractId : String
  rating : Int
  aspects : FeedbackAspects
  comments : String
  suggestedImprovements : List String
  timestamp : String
deriving DecidableEq, Repr

/-- `z.number().min(1).max(5)`. -/
def ratingInRange (n : Int) : Bool :=
  decide (1 ≤ n) && decide (n ≤ 5)

/-- `feedbackSchema.parse` succeeds exactly when the rating and every
aspect score lie in `[1, 5]` (the other fields are typed). -/
def validFeedback (f : FeedbackData) : Bool :=
  ratingInRange f.rating
    && ratingInRange f.aspects.clarity
    && ratingInRange f.aspects.completeness
    && ratingInRange f.aspects.accuracy
    && ratingInRange f.aspects.legalCompliance

/-- The row inserted into the `feedback` table (snake-cased columns as
in the insert payload of lines 120-127). -/
structure FeedbackRow where
  contract_id : String
  rating : Int
  aspects : FeedbackAspects
  comments : String
  suggested_improvements : List String
  timestamp : String
deriving DecidableEq, Repr

def toFeedbackRow (f : FeedbackData) : FeedbackRow :=
  ⟨f.contractId, f.rating, f.aspects, f.comments, f.suggestedImprovements, f.timestamp⟩

/-- Externally observable calls made by `processFeedback`, in order. -/
inductive FbEvent
  | storeCall
  | analyzeCall
deriving DecidableEq, Repr

/-- `processFeedback feedback`: returns the final database contents, the
ordered list of external calls made, and the outcome (`Except.error`
models the function throwing).  `storeError` is the `dbError` returned
by the insert (`none` = stored successfully), `analysisResult` the
outcome of the feedback-analysis chain over an abstract analysis type
`α`. -/
def processFeedback (α : Type) (storeError : Option String)
    (analysisResult : Except String α) (db : List FeedbackRow)
    (feedback : FeedbackData) :
    List FeedbackRow × List FbEvent × Except String (FeedbackData × α) :=
  if validFeedback feedback then
    match storeError with
    | some m =>
        (db, [.storeCall],
         .error ("Failed to process feedback: Failed to store feedback: " ++ m))
    | none =>
        let db2 := db ++ [toFeedbackRow feedback]
        match analysisResult with
        | .error m => (db2, [.storeCall, .analyzeCall],
            .error ("Failed to process feedback: " ++ m))
        | .ok a => (db2, [.storeCall, .analyzeCall], .ok (feedback, a))
  else
    (db, [], .error "Failed to process feedback: feedback validation error")

/-! ### Document processing (document-processing.ts, lines 100-135 and 275-297)

`processContractDocument` loads the PDF (`docs`), splits it into
`chunks`, invokes the metadata-extraction chain on
`chunks[0].pageContent`, and stores `docs[0].pageContent`.  Neither
first-element access is guarded: on an empty list the JavaScript
subscript yields `undefined` and reading `.pageContent` throws a
`TypeError`, which the surrounding catch rewraps.  Loader and splitter
outputs (page contents) and the extraction/store outcomes are oracle
parameters. -/

structure ExtractedParty where
  name : String
  role : String
deriving DecidableEq, Repr

structure ExtractedPropertyDetails where
  address : String
  price : Option String
  propertyType : String
deriving DecidableEq, Repr

structure ExtractedDates where
  effectiveDate : Option String
  closingDate : Option String
  expirationDate : Option String
deriving DecidableEq, Repr

/-- The `ContractMetadata` shape extracted by the document-processing
chain (`contractMetadataSchema`). -/
structure ExtractedContractMetadata where
  title : String
  type : String
  parties : List ExtractedParty
  propertyDetails : ExtractedPropertyDetails
  dates : ExtractedDates
  keyTerms : List String
deriving DecidableEq, Repr

/-- A sample extraction result used to exercise the document pipeline. -/
def sampleMetadata : ExtractedContractMetadata :=
  { title := "Purchase Agreement"
    type := "purchase"
    parties := [⟨"A Buyer", "buyer"⟩]
    propertyDetails := ⟨"1 Main St", some "$400,000", "residential"⟩
    dates := ⟨none, some "2025-01-01", none⟩
    keyTerms := ["financing"] }

/-- The message of the `TypeError` thrown by reading `.pageContent` off
the `undefined` produced by indexing an empty array. -/
def undefinedPageContentError : String :=
  "Cannot read properties of undefined (reading pageContent)"

/-- `processContractDocument`: the try block accesses
`chunks[0].pageContent` (metadata extraction) and then
`docs[0].pageContent` (vector-store persistence); the catch block
rewraps any error as `"Failed to process contract document: ..."`. -/
def processContractDocument (docs chunks : List String)
    (extractMetadata : String → Except String ExtractedContractMetadata)
    (storeError : Option String) :
    Except String (ExtractedContractMetadata × List String) :=
  let body : Except String (ExtractedContractMetadata × List String) :=
    match chunks with
    | [] => .error undefinedPageContentError
    | c0 :: _ =>
        match extractMetadata c0 with
        | .error e => .error e
        | .ok metadata =>
            match docs with
            | [] => .error undefinedPageContentError
            | _ :: _ =>
                match storeError with
                | some e => .error e
                | none => .ok (metadata, chunks)
  match body with
  | .error e => .error ("Failed to process contract document: " ++ e)
  | .ok v => .ok v

/-- JavaScript `s || d` on a string: yields `d` when `s` is empty
(falsy). -/
def jsOrString (s d : String) : String :=
  if s = "" then d else s

/-- `ContractWorkflowOrchestrator.executeProcessingWorkflow`: processes
the document and, when `options.validateResults` is set, analyzes
`chunks[0].pageContent` (again unguarded) with the extracted type or
`"unknown"`.  `analyze` is the clause-analysis oracle over an abstract
result type `α`, taking the text and the contract type. -/
def executeProcessingWorkflow (α : Type) (docs chunks : List String)
    (extractMetadata : String → Except String ExtractedContractMetadata)
    (storeError : Option String)
    (analyze : String → String → Except String α)
    (validateResults : Bool) :
    Except String (ExtractedContractMetadata × List String × Option α) :=
  match processContractDocument docs chunks extractMetadata storeError with
  | .error e => .error e
  | .ok (metadata, chunks2) =>
      if validateResults then
        match chunks2 with
        | [] => .error undefinedPageContentError
        | c0 :: _ =>
            match analyze c0 (jsOrString metadata.type "unknown") with
            | .error e => .error e
            | .ok a => .ok (metadata, chunks2, some a)
      else
        .ok (metadata, chunks2, none)

/-! ## Theorems -/

/-- Helper: with a pipeline failing on every attempt, `executeGo` from
attempt `r` (with `gas` retries left) performs `gas + 1` attempts and
returns the failed state carrying the wrapped message of the last
attempt. -/
theorem executeGo_allFail {ρ : Type} (pipeline : Nat → Except String ρ)
    (msgs : Nat → String) (hfail : ∀ k, pipeline k = .error (msgs k))
    (now : Nat) (vi : ParsedWorkflowInput) :
    ∀ gas r (st : WorkflowState ρ), r + gas = optMaxRetries vi →
      executeGo pipeline now vi st r =
        ({ status := .failed, currentStep := actionLabel vi.action
           results := st.results
           error := some ("Workflow failed after " ++ toString (optMaxRetries vi)
             ++ " attempts: " ++ msgs (optMaxRetries vi))
           startTime := st.startTime, endTime := some now }, gas + 1) := by
  intro gas
  induction gas with
  | zero =>
      intro r st hr
      rw [executeGo]
      simp only [hfail r]
      have hnot : ¬ r < optMaxRetries vi := by omega
      rw [dif_neg hnot]
      have hr0 : r = optMaxRetries vi := by omega
      subst hr0
      rfl
  | succ g ih =>
      intro r st hr
      rw [executeGo]
      simp only [hfail r]
      have hlt : r < optMaxRetries vi := by omega
      rw [dif_pos hlt]
      have := ih (r + 1)
        { st with status := .processing, currentStep := actionLabel vi.action } (by omega)
      simp only [this]

/-- C1: for every input passing validation, paired with a pipeline
failing on every attempt, `execute` with `maxRetries = N` performs
`N + 1` total attempts (`N` retries plus the original) and returns a
state with `status = failed`, `error` equal to
`"Workflow failed after N attempts: "` followed by the message of the
last underlying failure, and `endTime` stamped; with `N = 0` a single
failed attempt suffices. -/
theorem retry_bound_exact {ρ : Type} (pipeline : Nat → Except String ρ)
    (msgs : Nat → String) (N now : Nat) (input : RawWorkflowInput)
    (vi : ParsedWorkflowInput)
    (hparse : parseWorkflowInput input = .ok vi)
    (hN : optMaxRetries vi = N)
    (hfail : ∀ k, pipeline k = .error (msgs k)) :
    executeContractWorkflow pipeline now input =
      .ok ({ status := .failed, currentStep := actionLabel vi.action
             results := none
             error := some ("Workflow failed after " ++ toString N
               ++ " attempts: " ++ msgs N)
             startTime := now, endTime := some now }, N + 1) := by
  unfold executeContractWorkflow execute
  rw [hparse]
  dsimp only
  rw [executeGo_allFail pipeline msgs hfail now vi N 0 _ (by omega)]
  rw [hN]
  rfl

/-- Witness for C1: an always-failing pipeline with `maxRetries = 2`
makes 3 attempts and fails with the wrapped message. -/
theorem retry_bound_exact_witness :
    executeContractWorkflow (fun _ => (.error "upstream failure" : Except String Unit)) 7
      ⟨"generate", true, some ⟨none, none, some 2⟩⟩ =
      .ok ({ status := .failed, currentStep := "generate"
             results := none
             error := some "Workflow failed after 2 attempts: upstream failure"
             startTime := 7, endTime := some 7 }, 3) := by
  have h := retry_bound_exact (ρ := Unit) (fun _ => .error "upstream failure")
    (fun _ => "upstream failure") 2 7 ⟨"generate", true, some ⟨none, none, some 2⟩⟩
    ⟨.generate, some ⟨true, true, 2⟩⟩ (by rfl) (by rfl) (fun _ => rfl)
  exact h

/-- C2 (code bug): for an input failing validation against the
WorkflowInput shape, `executeContractWorkflow` does not return a failed
`WorkflowState` — the catch block re-runs
`workflowInputSchema.parse(input)`, which throws the validation error
again, so the caller observes a raw exception (modelled as
`Except.error`) and no retry is attempted. -/
theorem invalid_input_throws {ρ : Type} (pipeline : Nat → Except String ρ) (now : Nat) :
    executeContractWorkflow pipeline now ⟨"frobnicate", true, none⟩ =
      .error "Invalid enum value. Expected generate | process | analyze, received frobnicate" := by
  rfl

/-- Helper: `executeGo` always ends with `status` equal to `completed`
or `failed`. -/
theorem executeGo_terminal {ρ : Type} (pipeline : Nat → Except String ρ) (now : Nat)
    (vi : ParsedWorkflowInput) :
    ∀ gas r (st : WorkflowState ρ), optMaxRetries vi - r ≤ gas →
      (executeGo pipeline now vi st r).1.status = .completed ∨
      (executeGo pipeline now vi st r).1.status = .failed := by
  intro gas
  induction gas with
  | zero =>
      intro r st hr
      rw [executeGo]
      cases hp : pipeline r with
      | ok res => left; rfl
      | error e =>
          have hnot : ¬ r < optMaxRetries vi := by omega
          dsimp only
          rw [dif_neg hnot]
          right; rfl
  | succ g ih =>
      intro r st hr
      rw [executeGo]
      cases hp : pipeline r with
      | ok res => left; rfl
      | error e =>
          dsimp only
          by_cases hlt : r < optMaxRetries vi
          · rw [dif_pos hlt]
            exact ih (r + 1) _ (by omega)
          · rw [dif_neg hlt]
            right; rfl

/-- C9: for every `generate` input with `data` present and any
terminating pipeline, `executeContractWorkflow` terminates (the retry
recursion is well-founded: `retryCount` strictly increases and is
bounded by `maxRetries`) and returns a state with `status` equal to
`completed` or `failed`, never `pending` or `processing`. -/
theorem generate_workflow_terminates {ρ : Type} (pipeline : Nat → Except String ρ)
    (now : Nat) (opts : Option RawWorkflowOptions) :
    ∃ (st : WorkflowState ρ) (n : Nat),
      executeContractWorkflow pipeline now ⟨"generate", true, opts⟩ = .ok (st, n) ∧
      (st.status = .completed ∨ st.status = .failed) := by
  have hparse : parseWorkflowInput ⟨"generate", true, opts⟩ =
      .ok ⟨.generate, opts.map applyOptionDefaults⟩ := rfl
  unfold executeContractWorkflow execute
  rw [hparse]
  dsimp only
  refine ⟨_, _, rfl, ?_⟩
  exact executeGo_terminal pipeline now _
    (optMaxRetries ⟨.generate, opts.map applyOptionDefaults⟩) 0 _ (by omega)

/-- Helper: an element of `rankRaw i l` has rank at least `i + 1` and
its rank points back to its position in `l`. -/
theorem mem_rankRaw {r : SearchResult} :
    ∀ (i : Nat) (l : List (String × ℚ)), r ∈ rankRaw i l →
      i + 1 ≤ r.rank ∧ l.get? (r.rank - 1 - i) = some (r.document, r.score) := by
  intro i l
  induction l generalizing i with
  | nil => intro h; simp [rankRaw] at h
  | cons p rest ih =>
      intro h
      obtain ⟨d, s⟩ := p
      rw [rankRaw] at h
      rcases List.mem_cons.mp h with h1 | h2
      · subst h1
        refine ⟨Nat.le_refl (i + 1), ?_⟩
        have h0 : i + 1 - 1 - i = 0 := by omega
        simp [h0]
      · obtain ⟨hle, hget⟩ := ih (i + 1) h2
        refine ⟨by omega, ?_⟩
        have hpos : r.rank - 1 - i = (r.rank - 1 - (i + 1)) + 1 := by omega
        rw [hpos]
        simpa using hget

/-- C3 counterexample: for the raw candidates
`[(docA, 0.5), (docB, 0.9)]` with `minScore = 0.7`, the single returned
element has `rank = 2` (its position among the raw pre-filter
candidates), not `rank = 1` (its 1-based position in the filtered
result list), refuting the claim as stated. -/
theorem searchRank_counterexample :
    (processSearchResults lowHighCandidates (7 / 10)).map SearchResult.rank = [2] ∧
    (processSearchResults lowHighCandidates (7 / 10)).map SearchResult.rank ≠ [1] := by
  constructor
  · simp only [processSearchResults, lowHighCandidates, rankRaw, jsOrNum]
    norm_num [List.filter, List.insertionSort, List.orderedInsert]
  · simp only [processSearchResults, lowHighCandidates, rankRaw, jsOrNum]
    norm_num [List.filter, List.insertionSort, List.orderedInsert]

/-- C3 (amended): for every query and raw candidate list,
`searchContracts` returns only elements whose score is at least
`options.minScore`, sorted in descending order of score, and each
`rank` field of each returned element equals its 1-based position among the
raw pre-filter candidates (`raw[rank - 1]` is that very candidate), not
its position after the `minScore` filtering. -/
theorem search_results_amended (raw : List (String × ℚ)) (minScore : ℚ) :
    (∀ r ∈ processSearchResults raw minScore, minScore ≤ r.score) ∧
    List.Sorted scoreGe (processSearchResults raw minScore) ∧
    (∀ r ∈ processSearchResults raw minScore,
      1 ≤ r.rank ∧ raw.get? (r.rank - 1) = some (r.document, r.score)) := by
  have hmem : ∀ r ∈ processSearchResults raw minScore,
      r ∈ (rankRaw 0 raw).filter (fun r => decide (jsOrNum minScore (7 / 10) ≤ r.score)) := by
    intro r hr
    exact (List.mem_insertionSort scoreGe).mp hr
  refine ⟨?_, ?_, ?_⟩
  · intro r hr
    have h := List.mem_filter.mp (hmem r hr)
    have hle : jsOrNum minScore (7 / 10) ≤ r.score := of_decide_eq_true h.2
    have : minScore ≤ jsOrNum minScore (7 / 10) := by
      unfold jsOrNum
      by_cases h0 : minScore = 0
      · rw [if_pos h0, h0]; norm_num
      · rw [if_neg h0]
    exact le_trans this hle
  · exact List.sorted_insertionSort scoreGe _
  · intro r hr
    have h := List.mem_filter.mp (hmem r hr)
    have := mem_rankRaw 0 raw h.1
    simpa using this

/-- Helper: calling a self-referential wrapper closure never returns,
whatever the call-depth bound. -/
theorem callFilterFn_wrap_diverges (c : FilterCond) :
    ∀ (fuel : Nat) (rpc : List FilterCond),
      callFilterFn (.wrap c) fuel (.wrap c) rpc = none := by
  intro fuel
  induction fuel with
  | zero => intro rpc; rfl
  | succ f ih =>
      intro rpc
      rw [callFilterFn]
      rw [ih rpc]

/-- C4 (code bug): with both a contract-type filter and a date-range
filter supplied, invoking the function built by `buildFilterFunction`
never terminates for any call depth (each wrapper calls the reassigned
`filterChain` variable, i.e. itself), so the conjunction of filters is
never applied; with no optional filters the call terminates and applies
exactly the implicit `archived = false` condition. -/
theorem filter_composition_diverges :
    (∀ (fuel : Nat) (rpc : List FilterCond),
      invokeBuiltFilter typeAndDateFilters fuel rpc = none) ∧
    (∀ (fuel : Nat) (rpc : List FilterCond),
      invokeBuiltFilter noFilters fuel rpc = some (rpc ++ [.archivedEqFalse])) := by
  constructor
  · intro fuel rpc
    have hb : buildFilterFunction typeAndDateFilters = .wrap (.createdLte "2024-12-31") := rfl
    unfold invokeBuiltFilter
    rw [hb]
    exact callFilterFn_wrap_diverges _ fuel rpc
  · intro fuel rpc
    have hb : buildFilterFunction noFilters = .base := rfl
    unfold invokeBuiltFilter
    rw [hb]
    cases fuel <;> rfl

/-- C5: the post-validation step of the generation chain is the identity on
every schema-valid `ContractOutput` except that it overwrites
`metadata.lastUpdated` with the current generation timestamp; validating
an already-valid output a second time yields the same value unchanged
except `metadata.lastUpdated`, which is non-decreasing across repeated
calls when the clock is. -/
theorem validateAndStamp_idempotent_mod_timestamp (o : ContractOutput) (t1 t2 : String)
    (h : t1 ≤ t2) :
    validateAndStamp t1 (eraseContractOutput o) =
      .ok { o with metadata := { o.metadata with lastUpdated := t1 } } ∧
    validateAndStamp t2 (eraseContractOutput
        { o with metadata := { o.metadata with lastUpdated := t1 } }) =
      .ok { o with metadata := { o.metadata with lastUpdated := t2 } } ∧
    ({ o with metadata := { o.metadata with lastUpdated := t1 } } :
        ContractOutput).metadata.lastUpdated ≤
      ({ o with metadata := { o.metadata with lastUpdated := t2 } } :
        ContractOutput).metadata.lastUpdated := by
  refine ⟨rfl, rfl, h⟩

theorem validateAndStamp_witness :
    ("2024-05-01T00:00:00Z" ≤ "2024-05-02T00:00:00Z") ∧
    validateAndStamp "2024-05-02T00:00:00Z"
      (eraseContractOutput
        { title := "Purchase Agreement"
          sections := [⟨"Parties", "Buyer and Seller", true⟩]
          summary := "sale"
          metadata := ⟨"purchase", "CA", "2024-05-01T00:00:00Z", "1.0"⟩
          warnings := none }) =
      .ok { title := "Purchase Agreement"
            sections := [⟨"Parties", "Buyer and Seller", true⟩]
            summary := "sale"
            metadata := ⟨"purchase", "CA", "2024-05-02T00:00:00Z", "1.0"⟩
            warnings := none } := by
  constructor
  · rw [String.le_iff_toList_le]; decide
  · have h := validateAndStamp_idempotent_mod_timestamp
      { title := "Purchase Agreement"
        sections := [⟨"Parties", "Buyer and Seller", true⟩]
        summary := "sale"
        metadata := ⟨"purchase", "CA", "2024-04-30T00:00:00Z", "1.0"⟩
        warnings := none }
      "2024-05-01T00:00:00Z" "2024-05-02T00:00:00Z"
      (by rw [String.le_iff_toList_le]; decide)
    exact h.2.1

/-- C6 counterexample: with `includeSimilarContracts = false` the
generation pipeline still issues a similarity-retrieval call (step 1 of
`createContractChain` retrieves unconditionally), refuting the claimed
"only if" direction. -/
theorem generation_retrieval_counterexample :
    (generationRetrievalTrace (fun _ => []) false
        ⟨"1 Main St", "$400,000", "residential"⟩).1 =
      [⟨"residential property at 1 Main St for $400,000", 3⟩] ∧
    (generationRetrievalTrace (fun _ => []) false
        ⟨"1 Main St", "$400,000", "residential"⟩).1 ≠ [] := by
  constructor
  · rfl
  · intro h
    simp [generationRetrievalTrace] at h

/-- C6 (amended): the workflow-level retrieval
(`executeGenerationWorkflow`) happens exactly when
`options.includeSimilarContracts` is true, with query built from the
property type and address; in addition the generation chain always
performs its own retrieval with query built from property type, address
and price and limit 3, and it is the matches of the chain itself whose text is
injected into the generative prompt (joined with blank lines), with the
sentinel `"No similar contracts found."` injected when no match is
returned. -/
theorem generation_retrieval_amended (retr : RetrievalCall → List String)
    (includeSimilarContracts : Bool) (pd : GenPropertyDetails) :
    (generationRetrievalTrace retr includeSimilarContracts pd).1 =
      (if includeSimilarContracts then [workflowRetrievalCall pd, chainRetrievalCall pd]
       else [chainRetrievalCall pd]) ∧
    (chainRetrievalCall pd).limit = 3 ∧
    (generationRetrievalTrace retr includeSimilarContracts pd).2 =
      (if retr (chainRetrievalCall pd) = [] then "No similar contracts found."
       else String.intercalate "\n\n" (retr (chainRetrievalCall pd))) := by
  refine ⟨?_, rfl, ?_⟩
  · cases includeSimilarContracts <;> rfl
  · unfold generationRetrievalTrace chainSimilarContext
    cases h : retr (chainRetrievalCall pd) with
    | nil => simp [h]
    | cons a l => simp [h]

/-- Helper: the accumulator of `String.intercalate.go` is a prefix of
its result. -/
theorem inter_go_acc (s : String) :
    ∀ (l : List String) (A B : String),
      String.intercalate.go (A ++ B) s l = A ++ String.intercalate.go B s l := by
  intro l
  induction l with
  | nil => intro A B; rfl
  | cons a as ih =>
      intro A B
      show String.intercalate.go ((A ++ B) ++ s ++ a) s as =
        A ++ String.intercalate.go (B ++ s ++ a) s as
      rw [String.append_assoc (A ++ B) s a, String.append_assoc A B (s ++ a),
        ih A (B ++ (s ++ a)), String.append_assoc B s a]
/-- Helper: `String.intercalate.go` splits off its accumulator. -/
theorem inter_go_start (s : String) (l : List String) (acc : String) :
    String.intercalate.go acc s l = acc ++ String.intercalate.go "" s l := by
  conv_lhs => rw [show acc = acc ++ "" from (String.append_empty acc).symm]
  exact inter_go_acc s l acc ""
/-- Helper: every member of the list occurs verbatim inside the
intercalated string. -/
theorem mem_intercalate_decomp (s x : String) :
    ∀ (l : List String), x ∈ l → ∃ a b, String.intercalate s l = a ++ x ++ b := by
  intro l hl
  have go_decomp : ∀ (l : List String), x ∈ l → ∀ acc,
      ∃ a b, String.intercalate.go acc s l = a ++ x ++ b := by
    intro l
    induction l with
    | nil => intro h; exact absurd h (List.not_mem_nil x)
    | cons y ys ih =>
        intro h acc
        rcases List.mem_cons.mp h with h1 | h2
        · subst h1
          refine ⟨acc ++ s, String.intercalate.go "" s ys, ?_⟩
          show String.intercalate.go (acc ++ s ++ x) s ys = _
          rw [inter_go_start s ys (acc ++ s ++ x), String.append_assoc]
        · obtain ⟨a, b, hab⟩ := ih h2 (acc ++ s ++ y)
          exact ⟨a, b, hab⟩
  cases l with
  | nil => exact absurd hl (List.not_mem_nil x)
  | cons y ys =>
      rcases List.mem_cons.mp hl with h1 | h2
      · subst h1
        refine ⟨"", String.intercalate.go "" s ys, ?_⟩
        show String.intercalate.go x s ys = _
        rw [inter_go_start s ys x, String.empty_append]
      · obtain ⟨a, b, hab⟩ := go_decomp ys h2 y
        exact ⟨a, b, hab⟩

/-- C7: for every clause list, `validateContractRules` returns exactly
two entries: a `required_clauses` entry failing exactly when one of
`purchase_price`, `closing_date`, `contingencies` is absent from the
clause type set, its details listing the missing types (in particular a
clause list omitting `closing_date` yields `passed = false` with details
mentioning `closing_date`), and a `high_risk_review` entry failing
exactly when some clause has `riskLevel = high`, its details giving the
count of such clauses.  The embedded `validateContractRules` is a pure
function of the clause list: no generative service occurs in it. -/
theorem validateContractRules_spec (clauses : List ClauseData) (jurisdiction : String) :
    ∃ e1 e2, validateContractRules clauses jurisdiction = [e1, e2] ∧
      e1.rule = "required_clauses" ∧
      (e1.passed = false ↔ ∃ t ∈ requiredClauseTypes, ∀ c ∈ clauses, c.type ≠ t) ∧
      (e1.passed = false →
        e1.details = "Missing required clauses: "
          ++ String.intercalate ", " ((missingRequiredClauses clauses).map clauseTypeName)) ∧
      ((∀ c ∈ clauses, c.type ≠ .closing_date) →
        e1.passed = false ∧ ∃ a b, e1.details = a ++ "closing_date" ++ b) ∧
      e2.rule = "high_risk_review" ∧
      (e2.passed = false ↔ ∃ c ∈ clauses, c.riskLevel = .high) ∧
      (e2.passed = false →
        e2.details = "Found "
          ++ toString (clauses.filter (fun c => c.riskLevel == .high)).length
          ++ " high-risk clauses that need review") := by
  refine ⟨_, _, rfl, rfl, ?_, ?_, ?_, rfl, ?_, ?_⟩
  · simp only [missingRequiredClauses, beq_iff_eq]
    constructor
    · intro h
      have hne : requiredClauseTypes.filter
          (fun t => !(clauses.any (fun c => c.type == t))) ≠ [] := by
        intro hnil
        simp [hnil] at h
      obtain ⟨t, ht⟩ := List.exists_mem_of_ne_nil _ hne
      have := List.mem_filter.mp ht
      refine ⟨t, this.1, ?_⟩
      intro c hc hct
      have hany := this.2
      simp only [Bool.not_eq_true', List.any_eq_false] at hany
      exact hany c hc (by simp [hct])
    · rintro ⟨t, htmem, hnone⟩
      have hmem : t ∈ requiredClauseTypes.filter
          (fun t => !(clauses.any (fun c => c.type == t))) := by
        refine List.mem_filter.mpr ⟨htmem, ?_⟩
        simp only [Bool.not_eq_true', List.any_eq_false]
        intro c hc
        simp only [beq_iff_eq]
        exact hnone c hc
      have : requiredClauseTypes.filter
          (fun t => !(clauses.any (fun c => c.type == t))) ≠ [] := by
        intro hnil
        rw [hnil] at hmem
        exact List.not_mem_nil t hmem
      have hlen : (requiredClauseTypes.filter
          (fun t => !(clauses.any (fun c => c.type == t)))).length ≠ 0 := by
        simpa [List.length_eq_zero] using this
      simp [missingRequiredClauses, hlen]
  · intro hfail
    simp only [beq_iff_eq] at hfail ⊢
    have hlen : (missingRequiredClauses clauses).length ≠ 0 := by
      intro h0
      simp [h0] at hfail
    simp [if_pos (Nat.pos_of_ne_zero hlen)]
  · intro hcd
    have hany : clauses.any (fun c => c.type == ClauseType.closing_date) = false := by
      simp only [List.any_eq_false]
      intro c hc
      simp only [beq_iff_eq]
      exact hcd c hc
    have hmem : ClauseType.closing_date ∈ missingRequiredClauses clauses := by
      refine List.mem_filter.mpr ⟨by simp [requiredClauseTypes], by simp [hany]⟩
    have hne : missingRequiredClauses clauses ≠ [] := by
      intro hnil
      rw [hnil] at hmem
      exact List.not_mem_nil _ hmem
    have hlen : (missingRequiredClauses clauses).length ≠ 0 := by
      simpa [List.length_eq_zero] using hne
    constructor
    · simp [hlen]
    · rw [if_pos (Nat.pos_of_ne_zero hlen)]
      have hmemName : "closing_date" ∈ (missingRequiredClauses clauses).map clauseTypeName :=
        List.mem_map.mpr ⟨.closing_date, hmem, rfl⟩
      obtain ⟨a, b, hab⟩ := mem_intercalate_decomp ", " "closing_date" _ hmemName
      refine ⟨"Missing required clauses: " ++ a, b, ?_⟩
      rw [hab]
      simp [String.append_assoc]
  · constructor
    · intro h
      have hne : clauses.filter (fun c => c.riskLevel == RiskLevel.high) ≠ [] := by
        intro hnil
        simp [hnil] at h
      obtain ⟨c, hc⟩ := List.exists_mem_of_ne_nil _ hne
      have := List.mem_filter.mp hc
      exact ⟨c, this.1, by simpa using this.2⟩
    · rintro ⟨c, hcmem, hhigh⟩
      have hmem : c ∈ clauses.filter (fun c => c.riskLevel == RiskLevel.high) :=
        List.mem_filter.mpr ⟨hcmem, by simp [hhigh]⟩
      have hne : clauses.filter (fun c => c.riskLevel == RiskLevel.high) ≠ [] := by
        intro hnil
        rw [hnil] at hmem
        exact List.not_mem_nil _ hmem
      have hlen : (clauses.filter (fun c => c.riskLevel == RiskLevel.high)).length ≠ 0 := by
        simpa [List.length_eq_zero] using hne
      simp [hlen]
  · intro hfail
    have hlen : (clauses.filter (fun c => c.riskLevel == RiskLevel.high)).length ≠ 0 := by
      intro h0
      simp [h0] at hfail
    simp [if_pos (Nat.pos_of_ne_zero hlen)]

/-- Witness for C7: a clause list omitting `closing_date` and
containing a high-risk clause fails both rules, with the missing type
named in the details. -/
theorem validateContractRules_spec_witness :
    ∃ e1 e2,
      validateContractRules
        [⟨.purchase_price, "price is 400000", true, .low, none⟩,
         ⟨.contingencies, "financing", true, .high, none⟩] "CA" = [e1, e2] ∧
      e1.passed = false ∧ (∃ a b, e1.details = a ++ "closing_date" ++ b) ∧
      e2.passed = false := by
  obtain ⟨e1, e2, heq, hrule1, hiff1, hdet1, hcd, hrule2, hiff2, hdet2⟩ :=
    validateContractRules_spec
      [⟨.purchase_price, "price is 400000", true, .low, none⟩,
       ⟨.contingencies, "financing", true, .high, none⟩] "CA"
  have h := hcd (by decide)
  refine ⟨e1, e2, heq, h.1, h.2, ?_⟩
  exact hiff2.mpr ⟨⟨.contingencies, "financing", true, .high, none⟩, by decide, rfl⟩

/-- C8: for every valid `FeedbackData`, `processFeedback` performs the
database store before invoking the feedback-analysis chain (the event
trace is `[storeCall, analyzeCall]` in that order), and a failure of the
analysis step raises an error while the stored feedback row remains in
the database (no rollback). -/
theorem processFeedback_store_precedes_analysis {α : Type} (analysisError : String)
    (db : List FeedbackRow) (fb : FeedbackData) (hvalid : validFeedback fb = true) :
    processFeedback α none (.error analysisError) db fb =
      (db ++ [toFeedbackRow fb], [.storeCall, .analyzeCall],
       .error ("Failed to process feedback: " ++ analysisError)) ∧
    toFeedbackRow fb ∈ (processFeedback α none (.error analysisError) db fb).1 := by
  have h : processFeedback α none (.error analysisError) db fb =
      (db ++ [toFeedbackRow fb], [.storeCall, .analyzeCall],
       .error ("Failed to process feedback: " ++ analysisError)) := by
    unfold processFeedback
    rw [if_pos hvalid]
  refine ⟨h, ?_⟩
  rw [h]
  exact List.mem_append_right db (List.mem_singleton.mpr rfl)

/-- Witness for C8: the spec scenario feedback row is stored, then the
analysis fails, and the row persists. -/
theorem processFeedback_witness :
    validFeedback ⟨"c1", 5, ⟨5, 5, 5, 5⟩, "great", [], "2024-06-01T00:00:00Z"⟩ = true ∧
    processFeedback Unit none (.error "analysis model unavailable") []
        ⟨"c1", 5, ⟨5, 5, 5, 5⟩, "great", [], "2024-06-01T00:00:00Z"⟩ =
      ([⟨"c1", 5, ⟨5, 5, 5, 5⟩, "great", [], "2024-06-01T00:00:00Z"⟩],
       [.storeCall, .analyzeCall],
       .error "Failed to process feedback: analysis model unavailable") := by
  constructor
  · decide
  · have h := processFeedback_store_precedes_analysis (α := Unit)
      "analysis model unavailable" []
      ⟨"c1", 5, ⟨5, 5, 5, 5⟩, "great", [], "2024-06-01T00:00:00Z"⟩ (by decide)
    exact h.1

/-- C10: `processContractDocument` indexes `chunks[0]` and `docs[0]`
without an emptiness check, and the processing workflow indexes
`chunks[0]` likewise; when chunking yields zero chunks the undefined
first-element access is reached at the public interface (the resulting
`TypeError` is rewrapped by the catch block), while with at least one
document and one chunk the accesses are in bounds and the pipeline
succeeds. -/
theorem processContractDocument_first_chunk_access
    (docs : List String)
    (extractMetadata : String → Except String ExtractedContractMetadata)
    (d0 c0 : String) (ds cs : List String) (md : ExtractedContractMetadata)
    (hex : extractMetadata c0 = .ok md) :
    processContractDocument docs [] extractMetadata none =
      .error ("Failed to process contract document: " ++ undefinedPageContentError) ∧
    (∀ (α : Type) (analyze : String → String → Except String α) (v : Bool),
      executeProcessingWorkflow α docs [] extractMetadata none analyze v =
        .error ("Failed to process contract document: " ++ undefinedPageContentError)) ∧
    processContractDocument (d0 :: ds) (c0 :: cs) extractMetadata none =
      .ok (md, c0 :: cs) := by
  refine ⟨rfl, fun α analyze v => rfl, ?_⟩
  unfold processContractDocument
  dsimp only
  rw [hex]

/-- Witness for C10: with a concrete one-document input, zero chunks
reach the rewrapped undefined access while one chunk succeeds. -/
theorem processContractDocument_witness :
    (fun _ => Except.ok sampleMetadata : String → Except String ExtractedContractMetadata)
        "chunk text" = .ok sampleMetadata ∧
    processContractDocument ["doc text"] [] (fun _ => .ok sampleMetadata) none =
      .error ("Failed to process contract document: " ++ undefinedPageContentError) ∧
    processContractDocument ["doc text"] ["chunk text"] (fun _ => .ok sampleMetadata) none =
      .ok (sampleMetadata, ["chunk text"]) := by
  have h := processContractDocument_first_chunk_access ["doc text"]
    (fun _ => .ok sampleMetadata) "doc text" "chunk text" [] [] sampleMetadata rfl
  exact ⟨rfl, h.1, h.2.2⟩
